import Mathlib

/-!
# Verification of `background_lightshow.py` (peditx/launchkey_controller)

A shallow embedding of the "Random ARGB Rain" pad-light scheduler and its
configuration loader, together with proofs of the specification's claims.

Conventions of the embedding:
* A MIDI `note_on` message sent by `send_led_message(port, note, velocity)`
  is the record `MidiMsg` (channel, note, velocity).  Velocity `0` turns the
  LED off; the palette `COLOR_VELOCITIES` contains only nonzero velocities.
* The Python dict `active_lights` (pad note → absolute expiry time) is an
  association list `List (Nat × Nat)`; Python dict semantics (unique keys,
  first-match lookup, key deletion) are rendered by `dictGet`, `removeAll`
  and `dictSet` below.
* Wall-clock times (`time.time()`, float seconds) are abstracted to natural
  numbers measured in milliseconds; `LIGHT_DURATION = 0.5 s` becomes
  `LIGHT_DURATION_MS = 500`.  Each loop iteration reads an arbitrary
  current time, so a run of the loop is driven by a list of `TickIn`
  records: the time observed by the tick plus the two values produced by
  `random.choice(PAD_NOTES)` and `random.choice(COLOR_VELOCITIES)`
  (`random.choice` returns an element of its argument list, chosen
  uniformly; the deterministic content is the membership, which appears as
  a hypothesis on the tick inputs).
* Transport failures (`port.send` raising) are modelled by a failure
  oracle `fails : Nat → Bool` consulted at each send attempt, numbered
  globally in program order; the fallible run `run_rain_pattern_f` mirrors
  the `try/except/finally` of `run_rain_pattern`: the loop stops at the
  first failed send, the `finally` drain (`clear_all_pads`) always runs,
  and—as in the source, where `clear_all_pads` is not guarded—a failure
  inside the drain escapes `run_rain_pattern` (flag `escaped`).
-/

/-- One MIDI `note_on` message as built by `send_led_message`. -/
structure MidiMsg where
  channel : Nat
  note : Nat
  velocity : Nat
  deriving DecidableEq

/-- Constant `MIDI_CHANNEL = 0` (MIDI channel 1, index 0). -/
def MIDI_CHANNEL : Nat := 0

/-- Constant `PAD_NOTES = list(range(36, 52))`: MIDI notes 36 (C1) to 51 (D#2). -/
def PAD_NOTES : List Nat := List.range' 36 16

/-- Constant `COLOR_VELOCITIES`: velocity values for the eight pad colors. -/
def COLOR_VELOCITIES : List Nat := [5, 13, 21, 56, 60, 64, 80, 127]

/-- Constant `DEFAULT_PORT = 'Launchkey 25 MK2 MIDI 2'`. -/
def DEFAULT_PORT : String := "Launchkey 25 MK2 MIDI 2"

/-- Constant `INTERVAL_SECONDS = 0.05`, in milliseconds. -/
def INTERVAL_MS : Nat := 50

/-- Constant `LIGHT_DURATION = 0.5`, in milliseconds. -/
def LIGHT_DURATION_MS : Nat := 500

/-- Function `send_led_message(port, note, velocity)`: the message it puts on the
transport. -/
def send_led_message (note velocity : Nat) : MidiMsg :=
  ⟨MIDI_CHANNEL, note, velocity⟩

/-- Function `clear_all_pads(port)`: the messages it sends, in order — velocity 0
(off) for every pad note. -/
def clear_all_pads_events : List MidiMsg :=
  PAD_NOTES.map (fun n => send_led_message n 0)

/-! ## Python dict operations on the association list `active_lights` -/

/-- Lookup `d[k]` (and `k in d`): first-match lookup (keys are unique in a dict). -/
def dictGet (s : List (Nat × Nat)) (k : Nat) : Option Nat :=
  match s with
  | [] => none
  | (k', v) :: rest => if k' = k then some v else dictGet rest k

/-- Deletion `del d[k]`: remove the key `k`. -/
def dictDel (s : List (Nat × Nat)) (k : Nat) : List (Nat × Nat) :=
  s.filter (fun p => decide (p.1 ≠ k))

/-- Loop `for note in ns: del d[note]`: remove every key listed in `ns`. -/
def removeAll (s : List (Nat × Nat)) (ns : List Nat) : List (Nat × Nat) :=
  s.filter (fun p => decide (p.1 ∉ ns))

/-- Assignment `d[k] = v`: upsert.  A Python dict holds at most one entry per key, so
the update discards any old entry for `k`. -/
def dictSet (s : List (Nat × Nat)) (k v : Nat) : List (Nat × Nat) :=
  dictDel s k ++ [(k, v)]

/-! ## The scheduler loop (fault-free trace) -/

/-- The inputs consumed by one iteration of the `while True` loop: the
current time `time.time()` and the results of the two `random.choice`
calls. -/
structure TickIn where
  now : Nat
  note : Nat
  vel : Nat

/-- Comprehension `notes_to_clear = [note for note, expiry_time in active_lights.items()
if now >= expiry_time]`. -/
def expiredNotes (s : List (Nat × Nat)) (now : Nat) : List Nat :=
  (s.filter (fun p => decide (p.2 ≤ now))).map Prod.fst

/-- Step 1 of the loop body: send velocity-0 messages for the expired
notes and delete their entries. -/
def clearStep (s : List (Nat × Nat)) (now : Nat) :
    List MidiMsg × List (Nat × Nat) :=
  let toClear := expiredNotes s now
  (toClear.map (fun n => send_led_message n 0), removeAll s toClear)

/-- One full iteration of the loop body (steps 1–3): clear expired pads,
light the chosen pad, record its expiry `now + LIGHT_DURATION`. -/
def runTick (s : List (Nat × Nat)) (t : TickIn) :
    List MidiMsg × List (Nat × Nat) :=
  let c := clearStep s t.now
  (c.1 ++ [send_led_message t.note t.vel],
   dictSet c.2 t.note (t.now + LIGHT_DURATION_MS))

/-- The loop run over a list of tick inputs (the list ends where the run
is cancelled), returning all messages sent and the final
`active_lights`. -/
def runLoop (s : List (Nat × Nat)) : List TickIn → List MidiMsg × List (Nat × Nat)
  | [] => ([], s)
  | t :: ts =>
    let r := runTick s t
    let r2 := runLoop r.2 ts
    (r.1 ++ r2.1, r2.2)

/-- A tick input as `random.choice` can actually produce it: the note
comes from `PAD_NOTES`, the velocity from `COLOR_VELOCITIES`. -/
def ValidTick (t : TickIn) : Prop :=
  t.note ∈ PAD_NOTES ∧ t.vel ∈ COLOR_VELOCITIES

/-! ## Fallible transport: `try/except/finally` of `run_rain_pattern` -/

/-- Result of running (part of) the loop against a fallible transport:
messages successfully sent, the dict state, the global count of send
attempts so far, and whether a send raised. -/
structure LoopOut where
  events : List MidiMsg
  state : List (Nat × Nat)
  sends : Nat
  errored : Bool
  deriving DecidableEq

/-- Loop `for note in notes_to_clear: send_led_message(port, note, 0); del
active_lights[note]` against the failure oracle: stops at the first send
that raises (that note is then not deleted). -/
def clearPhaseF (fails : Nat → Bool) :
    List Nat → List (Nat × Nat) → Nat → LoopOut
  | [], s, k => ⟨[], s, k, false⟩
  | n :: ns, s, k =>
    if fails k then ⟨[], s, k + 1, true⟩
    else
      let r := clearPhaseF fails ns (dictDel s n) (k + 1)
      ⟨send_led_message n 0 :: r.events, r.state, r.sends, r.errored⟩

/-- One loop iteration against the failure oracle.  If the on-event send
raises, `active_lights` is not updated with the new expiry. -/
def runTickF (fails : Nat → Bool) (s : List (Nat × Nat)) (t : TickIn)
    (k : Nat) : LoopOut :=
  let r := clearPhaseF fails (expiredNotes s t.now) s k
  if r.errored then r
  else if fails r.sends then ⟨r.events, r.state, r.sends + 1, true⟩
  else ⟨r.events ++ [send_led_message t.note t.vel],
        dictSet r.state t.note (t.now + LIGHT_DURATION_MS),
        r.sends + 1, false⟩

/-- The `while True` loop against the failure oracle: a raised send exits
the loop at once (caught by the `except` arms); otherwise the loop runs
until its input list is exhausted (cancellation via `KeyboardInterrupt`).
-/
def runLoopF (fails : Nat → Bool) :
    List TickIn → List (Nat × Nat) → Nat → LoopOut
  | [], s, k => ⟨[], s, k, false⟩
  | t :: ts, s, k =>
    let r := runTickF fails s t k
    if r.errored then r
    else
      let r2 := runLoopF fails ts r.state r.sends
      ⟨r.events ++ r2.events, r2.state, r2.sends, r2.errored⟩

/-- Sending a list of messages in order against the failure oracle,
stopping at the first raise (used for the unguarded loop inside
`clear_all_pads`): delivered messages, new attempt count, raised flag. -/
def sendListF (fails : Nat → Bool) :
    List MidiMsg → Nat → List MidiMsg × Nat × Bool
  | [], k => ([], k, false)
  | m :: ms, k =>
    if fails k then ([], k + 1, true)
    else
      let r := sendListF fails ms (k + 1)
      (m :: r.1, r.2.1, r.2.2)

/-- Function `run_rain_pattern(port)` against the failure oracle: the loop runs; on
any exit (error or cancellation) the `finally` block runs
`clear_all_pads`.  `clear_all_pads` is not wrapped in its own handler, so
a raise inside it propagates out of `run_rain_pattern`: the second
component records whether that happened. -/
def run_rain_pattern_f (fails : Nat → Bool) (ticks : List TickIn) :
    List MidiMsg × Bool :=
  let r := runLoopF fails ticks [] 0
  let d := sendListF fails clear_all_pads_events r.sends
  (r.events ++ d.1, d.2.2)

/-! ## Configuration loading (`load_midi_port_name` and helpers)

The I/O environment the loader runs against: whether `config.json` exists,
what reading and JSON-parsing it yields (`none` when `open`/`json.load`
raises; otherwise the value of the `MIDI_PORT_NAME` key, when present),
and what `mido.get_output_names()` yields (`none` when it raises).
`save_midi_port_name` catches its own exceptions and does not affect the
returned name, so it needs no model beyond a no-op. -/

structure Env where
  configExists : Bool
  configRead : Option (Option String)
  outputNames : Option (List String)

/-- The port-name test inside `auto_detect_and_save_port`'s scan:
`'launchkey' in lower_name and ('midi 2' in lower_name or 'incontrol' in
lower_name)`. -/
def isLaunchkeyPort (name : String) : Bool :=
  let lower_name := name.toLower
  lower_name.containsSubstr (r"launchkey".toSubstring) &&
    (lower_name.containsSubstr (r"midi 2".toSubstring) ||
      lower_name.containsSubstr (r"incontrol".toSubstring))

/-- Function `auto_detect_and_save_port()`: scan the enumerated output names for
the first Launchkey LED-control port; on any failure (enumeration raised,
or no match) fall back to `DEFAULT_PORT`. -/
def auto_detect_and_save_port (env : Env) : String :=
  match env.outputNames with
  | none => DEFAULT_PORT
  | some output_names =>
    match output_names.find? isLaunchkeyPort with
    | some detected_port => detected_port
    | none => DEFAULT_PORT

/-- Function `load_midi_port_name()`: read the port name from `config.json`
(`config.get('MIDI_PORT_NAME', DEFAULT_PORT)`), or auto-detect when the
file is missing or unreadable/unparsable. -/
def load_midi_port_name (env : Env) : String :=
  if env.configExists then
    match env.configRead with
    | some config => config.getD DEFAULT_PORT
    | none => auto_detect_and_save_port env
  else
    auto_detect_and_save_port env

/-! ## Lemmas about the dict operations -/

theorem dictGet_some_mem {s : List (Nat × Nat)} {k e : Nat}
    (h : dictGet s k = some e) : (k, e) ∈ s := by
  induction s with
  | nil => simp [dictGet] at h
  | cons p rest ih =>
    obtain ⟨k', v⟩ := p
    by_cases hk : k' = k
    · subst hk
      simp [dictGet] at h
      subst h
      exact List.mem_cons_self _ _
    · simp [dictGet, hk] at h
      exact List.mem_cons_of_mem _ (ih h)

theorem keyNodup_eq {s : List (Nat × Nat)} {k e₁ e₂ : Nat}
    (hnd : (s.map Prod.fst).Nodup) (h₁ : (k, e₁) ∈ s) (h₂ : (k, e₂) ∈ s) :
    e₁ = e₂ := by
  induction s with
  | nil => simp at h₁
  | cons p rest ih =>
    simp only [List.map_cons, List.nodup_cons] at hnd
    rcases List.mem_cons.1 h₁ with rfl | h₁'
    · rcases List.mem_cons.1 h₂ with h | h₂'
      · exact congrArg Prod.snd h.symm
      · exact absurd (List.mem_map_of_mem Prod.fst h₂') hnd.1
    · rcases List.mem_cons.1 h₂ with rfl | h₂'
      · exact absurd (List.mem_map_of_mem Prod.fst h₁') hnd.1
      · exact ih hnd.2 h₁' h₂'

theorem dictGet_eq_some_of_mem {s : List (Nat × Nat)} {k e : Nat}
    (hnd : (s.map Prod.fst).Nodup) (h : (k, e) ∈ s) :
    dictGet s k = some e := by
  induction s with
  | nil => simp at h
  | cons p rest ih =>
    obtain ⟨k', v⟩ := p
    simp only [List.map_cons, List.nodup_cons] at hnd
    rcases List.mem_cons.1 h with h | h'
    · obtain ⟨rfl, rfl⟩ := Prod.mk.injEq .. ▸ h
      simp [dictGet]
    · by_cases hk : k' = k
      · subst hk
        exact absurd (List.mem_map_of_mem Prod.fst h') hnd.1
      · simp [dictGet, hk]
        exact ih hnd.2 h'

theorem dictGet_append (l₁ l₂ : List (Nat × Nat)) (k : Nat) :
    dictGet (l₁ ++ l₂) k = (dictGet l₁ k).or (dictGet l₂ k) := by
  induction l₁ with
  | nil => simp [dictGet]
  | cons p rest ih =>
    by_cases hk : p.1 = k
    · simp [dictGet, hk]
    · simp [dictGet, hk, ih]

theorem dictGet_filter_some {s : List (Nat × Nat)}
    {pred : Nat × Nat → Bool} {k e : Nat} (hg : dictGet s k = some e)
    (hp : pred (k, e) = true) : dictGet (s.filter pred) k = some e := by
  induction s with
  | nil => simp [dictGet] at hg
  | cons p rest ih =>
    obtain ⟨k', v⟩ := p
    by_cases hk : k' = k
    · subst hk
      simp [dictGet] at hg
      subst hg
      simp [List.filter_cons, hp, dictGet]
    · simp only [dictGet, if_neg hk] at hg
      cases hpred : pred (k', v) with
      | true => simp [List.filter_cons, hpred, dictGet, hk, ih hg]
      | false => simp [List.filter_cons, hpred, ih hg]

theorem dictGet_filter_none {s : List (Nat × Nat)}
    {pred : Nat × Nat → Bool} {k : Nat}
    (hd : ∀ v, (k, v) ∈ s → pred (k, v) = false) :
    dictGet (s.filter pred) k = none := by
  induction s with
  | nil => rfl
  | cons p rest ih =>
    obtain ⟨k', v⟩ := p
    have ih' := ih fun v hv => hd v (List.mem_cons_of_mem _ hv)
    by_cases hk : k' = k
    · subst hk
      simp [List.filter_cons, hd v (List.mem_cons_self _ _), ih']
    · cases hpred : pred (k', v) with
      | true => simp [List.filter_cons, hpred, dictGet, hk, ih']
      | false => simp [List.filter_cons, hpred, ih']

theorem dictGet_filter_of_none {s : List (Nat × Nat)}
    {pred : Nat × Nat → Bool} {k : Nat} (hg : dictGet s k = none) :
    dictGet (s.filter pred) k = none := by
  induction s with
  | nil => rfl
  | cons p rest ih =>
    obtain ⟨k', v⟩ := p
    by_cases hk : k' = k
    · subst hk
      simp [dictGet] at hg
    · simp only [dictGet, if_neg hk] at hg
      cases hpred : pred (k', v) with
      | true => simp [List.filter_cons, hpred, dictGet, hk, ih hg]
      | false => simp [List.filter_cons, hpred, ih hg]

theorem dictGet_dictDel_self (s : List (Nat × Nat)) (k : Nat) :
    dictGet (dictDel s k) k = none :=
  dictGet_filter_none fun v _ => by simp

theorem dictGet_dictDel_ne {k' k : Nat} (s : List (Nat × Nat))
    (h : k' ≠ k) : dictGet (dictDel s k) k' = dictGet s k' := by
  cases hg : dictGet s k' with
  | some e => exact dictGet_filter_some hg (by simp [h])
  | none => exact dictGet_filter_of_none hg

theorem dictGet_removeAll_of_mem {s : List (Nat × Nat)} {k : Nat}
    {ns : List Nat} (h : k ∈ ns) : dictGet (removeAll s ns) k = none :=
  dictGet_filter_none fun v _ => by simp [h]

theorem dictGet_removeAll_of_not_mem {s : List (Nat × Nat)} {k : Nat}
    {ns : List Nat} (h : k ∉ ns) :
    dictGet (removeAll s ns) k = dictGet s k := by
  cases hg : dictGet s k with
  | some e => exact dictGet_filter_some hg (by simp [h])
  | none => exact dictGet_filter_of_none hg

theorem dictGet_dictSet_self (s : List (Nat × Nat)) (k v : Nat) :
    dictGet (dictSet s k v) k = some v := by
  simp [dictSet, dictGet_append, dictGet_dictDel_self, dictGet]

theorem dictGet_dictSet_ne {k' k : Nat} (s : List (Nat × Nat)) (v : Nat)
    (h : k' ≠ k) : dictGet (dictSet s k v) k' = dictGet s k' := by
  rw [dictSet, dictGet_append, dictGet_dictDel_ne s h]
  cases hg : dictGet s k' with
  | some e => rfl
  | none =>
    by_cases hc : k = k'
    · exact absurd hc.symm h
    · simp [dictGet, hc, Option.or]

/-! Preservation of the dict's key discipline. -/

theorem keys_filter_nodup {s : List (Nat × Nat)} (p : Nat × Nat → Bool)
    (hnd : (s.map Prod.fst).Nodup) :
    ((s.filter p).map Prod.fst).Nodup :=
  List.Nodup.sublist ((List.filter_sublist s).map Prod.fst) hnd

theorem not_mem_keys_dictDel (s : List (Nat × Nat)) (k : Nat) :
    k ∉ (dictDel s k).map Prod.fst := by
  intro hmem
  obtain ⟨p, hp, hpk⟩ := List.mem_map.1 hmem
  have := List.of_mem_filter hp
  simp [hpk] at this

theorem keys_dictSet_nodup {s : List (Nat × Nat)} (k v : Nat)
    (hnd : (s.map Prod.fst).Nodup) :
    ((dictSet s k v).map Prod.fst).Nodup := by
  rw [dictSet, List.map_append]
  refine List.Nodup.append (keys_filter_nodup _ hnd) (List.nodup_singleton k) ?_
  intro a ha hb
  simp only [List.map_cons, List.map_nil, List.mem_singleton] at hb
  exact not_mem_keys_dictDel s k (hb ▸ ha)

/-! ## Lemmas about the loop body -/

theorem vel_mem_ne_zero {v : Nat} (h : v ∈ COLOR_VELOCITIES) : v ≠ 0 := by
  intro hv
  subst hv
  simp [COLOR_VELOCITIES] at h

theorem mem_expiredNotes {s : List (Nat × Nat)} {now n : Nat} :
    n ∈ expiredNotes s now ↔ ∃ e, (n, e) ∈ s ∧ e ≤ now := by
  constructor
  · intro h
    obtain ⟨p, hp, hpn⟩ := List.mem_map.1 h
    have hf := List.mem_filter.1 hp
    exact ⟨p.2, by simpa [← hpn] using hf.1, by simpa using hf.2⟩
  · rintro ⟨e, hmem, hle⟩
    exact List.mem_map.2 ⟨(n, e), List.mem_filter.2 ⟨hmem, by simpa⟩, rfl⟩

theorem not_mem_expiredNotes {s : List (Nat × Nat)} {now n e : Nat}
    (hnd : (s.map Prod.fst).Nodup) (hg : dictGet s n = some e)
    (hlt : now < e) : n ∉ expiredNotes s now := by
  intro hmem
  obtain ⟨e', hmem', hle⟩ := mem_expiredNotes.1 hmem
  have := keyNodup_eq hnd hmem' (dictGet_some_mem hg)
  omega

theorem expiredNotes_nodup {s : List (Nat × Nat)} (now : Nat)
    (hnd : (s.map Prod.fst).Nodup) : (expiredNotes s now).Nodup :=
  keys_filter_nodup _ hnd

/-- The dict keeps Python-dict shape along the run: at most one entry per
pad, and only pads from `PAD_NOTES`. -/
def KeysOk (s : List (Nat × Nat)) : Prop :=
  (s.map Prod.fst).Nodup ∧ ∀ p ∈ s, p.1 ∈ PAD_NOTES

theorem keysOk_length {s : List (Nat × Nat)} (h : KeysOk s) :
    s.length ≤ PAD_NOTES.length := by
  have hsub : s.map Prod.fst ⊆ PAD_NOTES := by
    intro a ha
    obtain ⟨p, hp, hpa⟩ := List.mem_map.1 ha
    exact hpa ▸ h.2 p hp
  have := (List.subperm_of_subset h.1 hsub).length_le
  simpa using this

theorem keysOk_runTick {s : List (Nat × Nat)} {t : TickIn} (h : KeysOk s)
    (ht : t.note ∈ PAD_NOTES) : KeysOk (runTick s t).2 := by
  refine ⟨keys_dictSet_nodup _ _ (keys_filter_nodup _ h.1), ?_⟩
  intro p hp
  rcases List.mem_append.1 hp with hp | hp
  · exact h.2 p (List.mem_of_mem_filter (List.mem_of_mem_filter hp))
  · simp only [List.mem_singleton] at hp
    subst hp
    exact ht

theorem keysOk_runLoop {ticks : List TickIn} :
    ∀ {s : List (Nat × Nat)}, KeysOk s →
      (∀ t ∈ ticks, t.note ∈ PAD_NOTES) → KeysOk (runLoop s ticks).2 := by
  induction ticks with
  | nil => intro s h _; exact h
  | cons t ts ih =>
    intro s h hv
    exact ih (keysOk_runTick h (hv t (List.mem_cons_self _ _)))
      fun t' ht' => hv t' (List.mem_cons_of_mem _ ht')

theorem runTick_events (s : List (Nat × Nat)) (t : TickIn) :
    (runTick s t).1 =
      (expiredNotes s t.now).map (fun n => send_led_message n 0) ++
        [send_led_message t.note t.vel] := rfl

theorem runLoop_on_events {ticks : List TickIn} :
    ∀ {s : List (Nat × Nat)}, (∀ t ∈ ticks, ValidTick t) →
      ∀ m ∈ (runLoop s ticks).1, m.velocity ≠ 0 →
        m.note ∈ PAD_NOTES ∧ m.velocity ∈ COLOR_VELOCITIES := by
  induction ticks with
  | nil => intro s _ m hm; simp [runLoop] at hm
  | cons t ts ih =>
    intro s hv m hm hvel
    rcases List.mem_append.1 hm with hm | hm
    · rw [runTick_events] at hm
      rcases List.mem_append.1 hm with hm | hm
      · obtain ⟨n, _, rfl⟩ := List.mem_map.1 hm
        exact absurd rfl hvel
      · simp only [List.mem_singleton] at hm
        subst hm
        exact (hv t (List.mem_cons_self _ _))
    · exact ih (fun t' ht' => hv t' (List.mem_cons_of_mem _ ht')) m hm hvel

theorem runTick_state (s : List (Nat × Nat)) (t : TickIn) :
    (runTick s t).2 =
      dictSet (removeAll s (expiredNotes s t.now)) t.note
        (t.now + LIGHT_DURATION_MS) := rfl

theorem runTick_get_self (s : List (Nat × Nat)) (t : TickIn) :
    dictGet (runTick s t).2 t.note = some (t.now + LIGHT_DURATION_MS) := by
  rw [runTick_state]
  exact dictGet_dictSet_self _ _ _

theorem runTick_get_ne {s : List (Nat × Nat)} {t : TickIn} {P : Nat}
    (h : P ≠ t.note) :
    dictGet (runTick s t).2 P =
      dictGet (removeAll s (expiredNotes s t.now)) P := by
  rw [runTick_state]
  exact dictGet_dictSet_ne _ _ h

theorem countP_key_dictSet (s : List (Nat × Nat)) (k v : Nat) :
    (dictSet s k v).countP (fun p => decide (p.1 = k)) = 1 := by
  rw [dictSet, List.countP_append]
  have h1 : (dictDel s k).countP (fun p => decide (p.1 = k)) = 0 := by
    rw [List.countP_eq_zero]
    intro p hp
    have := List.of_mem_filter hp
    simpa using this
  simp [h1]

/-- While pad `P`'s tracked expiry stays at or above `T2 + D`, ticks whose
observed time lies in the window `[T2, T2 + D)` never send a velocity-0
message for `P`. -/
theorem seg_no_off {P T2 : Nat} {seg : List TickIn} :
    ∀ {s : List (Nat × Nat)} {e : Nat},
      (s.map Prod.fst).Nodup →
      (∀ t ∈ seg, T2 ≤ t.now ∧ t.now < T2 + LIGHT_DURATION_MS ∧
        t.vel ∈ COLOR_VELOCITIES) →
      dictGet s P = some e → T2 + LIGHT_DURATION_MS ≤ e →
      ∀ m ∈ (runLoop s seg).1, m.note = P → m.velocity ≠ 0 := by
  induction seg with
  | nil => intro s e _ _ _ _ m hm; simp [runLoop] at hm
  | cons t ts ih =>
    intro s e hnd hseg hg he m hm hP
    obtain ⟨hT2, hltD, hvmem⟩ := hseg t (List.mem_cons_self _ _)
    have hlt_e : t.now < e := by omega
    have hnotexp : P ∉ expiredNotes s t.now :=
      not_mem_expiredNotes hnd hg hlt_e
    rcases List.mem_append.1 hm with hm | hm
    · rw [runTick_events] at hm
      rcases List.mem_append.1 hm with hm | hm
      · obtain ⟨n, hn, rfl⟩ := List.mem_map.1 hm
        exact absurd (hP ▸ hn) hnotexp
      · simp only [List.mem_singleton] at hm
        subst hm
        exact vel_mem_ne_zero hvmem
    · have hnd' : (((runTick s t).2).map Prod.fst).Nodup := by
        rw [runTick_state]
        exact keys_dictSet_nodup _ _ (keys_filter_nodup _ hnd)
      have hseg' := fun t' ht' => hseg t' (List.mem_cons_of_mem _ ht')
      by_cases hn : t.note = P
      · have hg' : dictGet (runTick s t).2 P =
            some (t.now + LIGHT_DURATION_MS) := hn ▸ runTick_get_self s t
        exact ih hnd' hseg' hg' (by omega) m hm hP
      · have hg' : dictGet (runTick s t).2 P = some e := by
          rw [runTick_get_ne fun hc => hn hc.symm,
            dictGet_removeAll_of_not_mem hnotexp, hg]
        exact ih hnd' hseg' hg' he m hm hP

/-- C2: if pad `P` is lit with tracked expiry `T1 + D` and is relit at
time `T2 < T1 + D` (any palette velocity `v`), then `P`'s tracked expiry
becomes `T2 + D`, the dict still holds exactly one entry for `P` (the
prior timer is overwritten, never kept as a second independent expiry),
and neither the relighting tick nor any later tick observing a time below
`T2 + D` emits a velocity-0 (off) message for `P`. -/
theorem claim_C2 (s : List (Nat × Nat)) (P T1 T2 v : Nat)
    (seg : List TickIn) (hnd : (s.map Prod.fst).Nodup)
    (hP : dictGet s P = some (T1 + LIGHT_DURATION_MS))
    (hT : T2 < T1 + LIGHT_DURATION_MS) (hv : v ∈ COLOR_VELOCITIES)
    (hseg : ∀ t ∈ seg, T2 ≤ t.now ∧ t.now < T2 + LIGHT_DURATION_MS ∧
      t.vel ∈ COLOR_VELOCITIES) :
    dictGet (runTick s ⟨T2, P, v⟩).2 P = some (T2 + LIGHT_DURATION_MS) ∧
    ((runTick s ⟨T2, P, v⟩).2.countP (fun p => decide (p.1 = P))) = 1 ∧
    (∀ m ∈ (runTick s ⟨T2, P, v⟩).1, m.note = P → m.velocity ≠ 0) ∧
    (∀ m ∈ (runLoop (runTick s ⟨T2, P, v⟩).2 seg).1,
      m.note = P → m.velocity ≠ 0) := by
  have hnotexp : P ∉ expiredNotes s T2 :=
    not_mem_expiredNotes hnd hP (by omega)
  have hget : dictGet (runTick s ⟨T2, P, v⟩).2 P =
      some (T2 + LIGHT_DURATION_MS) := runTick_get_self s ⟨T2, P, v⟩
  have hnd' : (((runTick s ⟨T2, P, v⟩).2).map Prod.fst).Nodup := by
    rw [runTick_state]
    exact keys_dictSet_nodup _ _ (keys_filter_nodup _ hnd)
  refine ⟨hget, ?_, ?_, ?_⟩
  · rw [runTick_state]
    exact countP_key_dictSet _ _ _
  · intro m hm hPm
    rw [runTick_events] at hm
    rcases List.mem_append.1 hm with hm | hm
    · obtain ⟨n, hn, rfl⟩ := List.mem_map.1 hm
      exact absurd (hPm ▸ hn) hnotexp
    · simp only [List.mem_singleton] at hm
      subst hm
      exact vel_mem_ne_zero hv
  · exact seg_no_off hnd' hseg hget (Nat.le_refl _)

/-- Concrete instantiation of `claim_C2`: pad 40 lit at `T1 = 100`
(expiry 600), relit at `T2 = 300` with velocity 5, then one tick at time
350 inside the window. -/
theorem claim_C2_witness :
    dictGet (runTick [(40, 600)] ⟨300, 40, 5⟩).2 40 = some (300 + LIGHT_DURATION_MS) ∧
    ((runTick [(40, 600)] ⟨300, 40, 5⟩).2.countP (fun p => decide (p.1 = 40))) = 1 ∧
    (∀ m ∈ (runTick [(40, 600)] ⟨300, 40, 5⟩).1, m.note = 40 → m.velocity ≠ 0) ∧
    (∀ m ∈ (runLoop (runTick [(40, 600)] ⟨300, 40, 5⟩).2 [⟨350, 40, 13⟩]).1,
      m.note = 40 → m.velocity ≠ 0) :=
  claim_C2 [(40, 600)] 40 100 300 5 [⟨350, 40, 13⟩] (by decide) (by decide)
    (by decide) (by decide) (by decide)

theorem send_off_injective :
    Function.Injective (fun n => send_led_message n 0) := by
  intro a b h
  simpa [send_led_message] using h

/-- C4: in the expiry-scan step of a tick, every tracked entry whose
expiry is ≤ the tick's current time gets exactly one velocity-0 (off)
message and is removed from the dict; an entry whose expiry is still in
the future gets no message and is kept unchanged; every message of the
scan step carries velocity 0, and 0 is not a palette color. -/
theorem claim_C4 (s : List (Nat × Nat)) (now P e : Nat)
    (hnd : (s.map Prod.fst).Nodup) (hmem : (P, e) ∈ s) :
    (e ≤ now →
      (clearStep s now).1.count (send_led_message P 0) = 1 ∧
      dictGet (clearStep s now).2 P = none) ∧
    (now < e →
      (∀ m ∈ (clearStep s now).1, m.note ≠ P) ∧
      dictGet (clearStep s now).2 P = some e) ∧
    (∀ m ∈ (clearStep s now).1, m.velocity = 0) ∧
    (0 : Nat) ∉ COLOR_VELOCITIES := by
  have hg : dictGet s P = some e := dictGet_eq_some_of_mem hnd hmem
  refine ⟨?_, ?_, ?_, by decide⟩
  · intro hle
    have hPin : P ∈ expiredNotes s now := mem_expiredNotes.2 ⟨e, hmem, hle⟩
    constructor
    · show ((expiredNotes s now).map (fun n => send_led_message n 0)).count
        (send_led_message P 0) = 1
      rw [List.count_map_of_injective _ _ send_off_injective]
      exact List.count_eq_one_of_mem (expiredNotes_nodup now hnd) hPin
    · exact dictGet_removeAll_of_mem hPin
  · intro hlt
    have hPout : P ∉ expiredNotes s now := not_mem_expiredNotes hnd hg hlt
    constructor
    · intro m hm hPm
      obtain ⟨n, hn, rfl⟩ := List.mem_map.1 hm
      exact hPout (hPm ▸ hn)
    · rw [show (clearStep s now).2 = removeAll s (expiredNotes s now) from rfl,
        dictGet_removeAll_of_not_mem hPout]
      exact hg
  · intro m hm
    obtain ⟨n, _, rfl⟩ := List.mem_map.1 hm
    rfl

/-- Concrete instantiation of `claim_C4`: dict `[(36, 100), (37, 900)]`
scanned at time 500. -/
theorem claim_C4_witness :
    ((100 : Nat) ≤ 500 →
      (clearStep [(36, 100), (37, 900)] 500).1.count (send_led_message 36 0) = 1 ∧
      dictGet (clearStep [(36, 100), (37, 900)] 500).2 36 = none) ∧
    ((500 : Nat) < 100 →
      (∀ m ∈ (clearStep [(36, 100), (37, 900)] 500).1, m.note ≠ 36) ∧
      dictGet (clearStep [(36, 100), (37, 900)] 500).2 36 = some 100) ∧
    (∀ m ∈ (clearStep [(36, 100), (37, 900)] 500).1, m.velocity = 0) ∧
    (0 : Nat) ∉ COLOR_VELOCITIES :=
  claim_C4 [(36, 100), (37, 900)] 500 36 100 (by decide) (by decide)

/-- C5: after any run of the loop on valid tick inputs, the active-light
dict maps each pad to at most one expiry entry, its keys all lie in
`PAD_NOTES`, and its size is at most `|PAD_NOTES| = 16`.  The tick list is
universally quantified, so this holds at every tick boundary of every
run. -/
theorem claim_C5 (ticks : List TickIn)
    (hv : ∀ t ∈ ticks, t.note ∈ PAD_NOTES) :
    KeysOk (runLoop [] ticks).2 ∧
    (runLoop [] ticks).2.length ≤ PAD_NOTES.length ∧
    PAD_NOTES.length = 16 := by
  have h : KeysOk (runLoop [] ticks).2 :=
    keysOk_runLoop ⟨List.nodup_nil, by simp⟩ hv
  exact ⟨h, keysOk_length h, rfl⟩

/-- Concrete instantiation of `claim_C5`: a two-tick run that relights
pad 36. -/
theorem claim_C5_witness :
    KeysOk (runLoop [] [⟨0, 36, 5⟩, ⟨50, 36, 13⟩]).2 ∧
    (runLoop [] [⟨0, 36, 5⟩, ⟨50, 36, 13⟩]).2.length ≤ PAD_NOTES.length ∧
    PAD_NOTES.length = 16 :=
  claim_C5 [⟨0, 36, 5⟩, ⟨50, 36, 13⟩] (by decide)

/-- C10: every iteration of the loop sends exactly one nonzero-velocity
(on) message, whatever the dict state — a run of `n` ticks sends exactly
`n` on-messages. -/
theorem claim_C10 (s : List (Nat × Nat)) (ticks : List TickIn)
    (hv : ∀ t ∈ ticks, t.vel ∈ COLOR_VELOCITIES) :
    ((runLoop s ticks).1.countP (fun m => decide (m.velocity ≠ 0))) =
      ticks.length := by
  induction ticks generalizing s with
  | nil => simp [runLoop]
  | cons t ts ih =>
    have hcount : ((runTick s t).1.countP
        (fun m => decide (m.velocity ≠ 0))) = 1 := by
      rw [runTick_events, List.countP_append]
      have h0 : (((expiredNotes s t.now).map
          (fun n => send_led_message n 0)).countP
          (fun m => decide (m.velocity ≠ 0))) = 0 := by
        rw [List.countP_eq_zero]
        intro m hm
        obtain ⟨n, _, rfl⟩ := List.mem_map.1 hm
        simp [send_led_message]
      have h1 : (([send_led_message t.note t.vel]).countP
          (fun m => decide (m.velocity ≠ 0))) = 1 := by
        simp [send_led_message,
          vel_mem_ne_zero (hv t (List.mem_cons_self _ _))]
      omega
    show (((runTick s t).1 ++ (runLoop (runTick s t).2 ts).1).countP
        (fun m => decide (m.velocity ≠ 0))) = ts.length + 1
    rw [List.countP_append, hcount,
      ih _ fun t' ht' => hv t' (List.mem_cons_of_mem _ ht')]
    omega

/-- Concrete instantiation of `claim_C10`: two ticks on a dict where all
pads are already lit and nothing expires still send one on-message each. -/
theorem claim_C10_witness :
    ((runLoop [(36, 1000), (37, 1000)] [⟨0, 36, 5⟩, ⟨50, 37, 13⟩]).1.countP
      (fun m => decide (m.velocity ≠ 0))) =
      ([⟨0, 36, 5⟩, ⟨50, 37, 13⟩] : List TickIn).length :=
  claim_C10 [(36, 1000), (37, 1000)] [⟨0, 36, 5⟩, ⟨50, 37, 13⟩] (by decide)

/-- C8: the pad range is the 16 contiguous MIDI notes 36..51 and the
palette has 8 nonzero color codes (0 is the off sentinel, not a palette
member); every nonzero-velocity (on) message a tick emits carries a pad
from `PAD_NOTES` and a velocity from `COLOR_VELOCITIES` — the two values
are exactly the outputs of `random.choice(PAD_NOTES)` and
`random.choice(COLOR_VELOCITIES)`, each of which returns a uniformly
chosen element of its list. -/
theorem claim_C8 :
    PAD_NOTES.length = 16 ∧
    (∀ i (h : i < PAD_NOTES.length), PAD_NOTES.get ⟨i, h⟩ = 36 + i) ∧
    COLOR_VELOCITIES.length = 8 ∧
    (0 : Nat) ∉ COLOR_VELOCITIES ∧
    (∀ (s : List (Nat × Nat)) (t : TickIn), ValidTick t →
      ∀ m ∈ (runTick s t).1, m.velocity ≠ 0 →
        m.note ∈ PAD_NOTES ∧ m.velocity ∈ COLOR_VELOCITIES) := by
  refine ⟨rfl, by decide, rfl, by decide, ?_⟩
  intro s t ht m hm hvel
  rw [runTick_events] at hm
  rcases List.mem_append.1 hm with hm | hm
  · obtain ⟨n, _, rfl⟩ := List.mem_map.1 hm
    exact absurd rfl hvel
  · simp only [List.mem_singleton] at hm
    subst hm
    exact ht

/-- Concrete instantiation of `claim_C8`: the on-message of a tick with
note 51 and velocity 127. -/
theorem claim_C8_witness :
    (send_led_message 51 127).note ∈ PAD_NOTES ∧
    (send_led_message 51 127).velocity ∈ COLOR_VELOCITIES :=
  claim_C8.2.2.2.2 [] ⟨0, 51, 127⟩ ⟨by decide, by decide⟩
    (send_led_message 51 127) (by decide) (by decide)

/-! ## Lemmas about the fallible run -/

theorem sendListF_ok {fails : Nat → Bool} :
    ∀ {l : List MidiMsg} {k : Nat},
      (∀ i, i < l.length → fails (k + i) = false) →
      sendListF fails l k = (l, k + l.length, false) := by
  intro l
  induction l with
  | nil => intro k _; simp [sendListF]
  | cons m ms ih =>
    intro k h
    have h0 : fails k = false := by simpa using h 0 (by simp)
    have hrest : ∀ i, i < ms.length → fails (k + 1 + i) = false := by
      intro i hi
      have heq : k + 1 + i = k + (i + 1) := by omega
      rw [heq]
      exact h (i + 1) (by simp; omega)
    simp only [sendListF, h0, Bool.false_eq_true, if_false, ih hrest]
    have heq : k + 1 + ms.length = k + (ms.length + 1) := by omega
    simp [heq]

theorem sendListF_err_iff {fails : Nat → Bool} :
    ∀ {l : List MidiMsg} {k : Nat},
      (sendListF fails l k).2.2 = true ↔
        ∃ i, i < l.length ∧ fails (k + i) = true := by
  intro l
  induction l with
  | nil => intro k; simp [sendListF]
  | cons m ms ih =>
    intro k
    cases hf : fails k with
    | true =>
      simp only [sendListF, hf, if_true]
      exact ⟨fun _ => ⟨0, by simp, by simpa using hf⟩, fun _ => trivial⟩
    | false =>
      simp only [sendListF, hf, Bool.false_eq_true, if_false]
      rw [ih]
      constructor
      · rintro ⟨i, hi, hfi⟩
        refine ⟨i + 1, by simpa using Nat.succ_lt_succ hi, ?_⟩
        have heq : k + (i + 1) = k + 1 + i := by omega
        rw [heq]
        exact hfi
      · rintro ⟨i, hi, hfi⟩
        cases i with
        | zero => rw [Nat.add_zero] at hfi; rw [hf] at hfi; cases hfi
        | succ i' =>
          refine ⟨i', by simpa using Nat.lt_of_succ_lt_succ hi, ?_⟩
          have heq : k + 1 + i' = k + (i' + 1) := by omega
          rw [heq]
          exact hfi

theorem runLoopF_append_of_errored {fails : Nat → Bool} :
    ∀ {ticks : List TickIn} {s : List (Nat × Nat)} {k : Nat},
      (runLoopF fails ticks s k).errored = true → ∀ (extra : List TickIn),
        runLoopF fails (ticks ++ extra) s k = runLoopF fails ticks s k := by
  intro ticks
  induction ticks with
  | nil => intro s k h _; simp [runLoopF] at h
  | cons t ts ih =>
    intro s k h extra
    cases hr : (runTickF fails s t k).errored with
    | true => simp [runLoopF, hr]
    | false =>
      have h2 : (runLoopF fails ts (runTickF fails s t k).state
          (runTickF fails s t k).sends).errored = true := by
        simpa [runLoopF, hr] using h
      simp [runLoopF, hr, ih h2 extra]

theorem clearPhaseF_velocity {fails : Nat → Bool} :
    ∀ {ns : List Nat} {s : List (Nat × Nat)} {k : Nat},
      ∀ m ∈ (clearPhaseF fails ns s k).events, m.velocity = 0 := by
  intro ns
  induction ns with
  | nil => intro s k m hm; simp [clearPhaseF] at hm
  | cons n ns' ih =>
    intro s k m hm
    cases hf : fails k with
    | true => simp [clearPhaseF, hf] at hm
    | false =>
      simp only [clearPhaseF, hf, Bool.false_eq_true, if_false] at hm
      rcases List.mem_cons.1 hm with rfl | hm
      · rfl
      · exact ih m hm

theorem runTickF_on {fails : Nat → Bool} {s : List (Nat × Nat)}
    {t : TickIn} {k : Nat} (ht : ValidTick t) :
    ∀ m ∈ (runTickF fails s t k).events, m.velocity ≠ 0 →
      m.note ∈ PAD_NOTES := by
  intro m hm hvel
  rw [runTickF] at hm
  cases hr : (clearPhaseF fails (expiredNotes s t.now) s k).errored with
  | true =>
    simp only [hr, if_true] at hm
    exact absurd (clearPhaseF_velocity m hm) hvel
  | false =>
    simp only [hr, Bool.false_eq_true, if_false] at hm
    cases hf : fails (clearPhaseF fails (expiredNotes s t.now) s k).sends with
    | true =>
      simp only [hf, if_true] at hm
      exact absurd (clearPhaseF_velocity m hm) hvel
    | false =>
      simp only [hf, Bool.false_eq_true, if_false] at hm
      rcases List.mem_append.1 hm with hm | hm
      · exact absurd (clearPhaseF_velocity m hm) hvel
      · simp only [List.mem_singleton] at hm
        subst hm
        exact ht.1

theorem runLoopF_on {fails : Nat → Bool} :
    ∀ {ticks : List TickIn} {s : List (Nat × Nat)} {k : Nat},
      (∀ t ∈ ticks, ValidTick t) →
      ∀ m ∈ (runLoopF fails ticks s k).events, m.velocity ≠ 0 →
        m.note ∈ PAD_NOTES := by
  intro ticks
  induction ticks with
  | nil => intro s k _ m hm; simp [runLoopF] at hm
  | cons t ts ih =>
    intro s k hv m hm hvel
    have hthead := hv t (List.mem_cons_self _ _)
    have htrest := fun t' ht' => hv t' (List.mem_cons_of_mem _ ht')
    cases hr : (runTickF fails s t k).errored with
    | true =>
      simp only [runLoopF, hr, if_true] at hm
      exact runTickF_on hthead m hm hvel
    | false =>
      simp only [runLoopF, hr, Bool.false_eq_true, if_false] at hm
      rcases List.mem_append.1 hm with hm | hm
      · exact runTickF_on hthead m hm hvel
      · exact ih htrest m hm hvel

theorem run_rain_pattern_f_trace (fails : Nat → Bool) (ticks : List TickIn)
    (hdrain : ∀ i, i < clear_all_pads_events.length →
      fails ((runLoopF fails ticks [] 0).sends + i) = false) :
    (run_rain_pattern_f fails ticks).1 =
      (runLoopF fails ticks [] 0).events ++ clear_all_pads_events := by
  show (runLoopF fails ticks [] 0).events ++
      (sendListF fails clear_all_pads_events
        (runLoopF fails ticks [] 0).sends).1 = _
  rw [sendListF_ok hdrain]

/-- C1: whether the loop stops by cancellation (its tick input list runs
out) or by a transport error (a failed send aborts the loop), provided
the drain's own sends go through, every nonzero-velocity (on) message in
the whole emitted trace is followed, later in the trace, by a velocity-0
(off) message for the same pad. -/
theorem claim_C1 (fails : Nat → Bool) (ticks : List TickIn)
    (hv : ∀ t ∈ ticks, ValidTick t)
    (hdrain : ∀ i, i < clear_all_pads_events.length →
      fails ((runLoopF fails ticks [] 0).sends + i) = false) :
    ∀ (i : Nat) (m : MidiMsg), (run_rain_pattern_f fails ticks).1[i]? = some m →
      m.velocity ≠ 0 →
      ∃ j, i < j ∧ (run_rain_pattern_f fails ticks).1[j]? =
        some (send_led_message m.note 0) := by
  intro i m hi hvel
  rw [run_rain_pattern_f_trace fails ticks hdrain] at hi ⊢
  set L := (runLoopF fails ticks [] 0).events with hL
  by_cases hlt : i < L.length
  · rw [List.getElem?_append_left hlt, List.getElem?_eq_getElem hlt] at hi
    have hmem : m ∈ L := by
      rw [← Option.some.inj hi]
      exact List.getElem_mem hlt
    have hpad : m.note ∈ PAD_NOTES := runLoopF_on hv m hmem hvel
    have hidx : PAD_NOTES.indexOf m.note < PAD_NOTES.length :=
      List.indexOf_lt_length.2 hpad
    refine ⟨L.length + PAD_NOTES.indexOf m.note, by omega, ?_⟩
    rw [List.getElem?_append_right (by omega)]
    have hsub : L.length + PAD_NOTES.indexOf m.note - L.length =
        PAD_NOTES.indexOf m.note := by omega
    rw [hsub]
    show (PAD_NOTES.map (fun n => send_led_message n 0))[
      PAD_NOTES.indexOf m.note]? = _
    rw [List.getElem?_map, List.getElem?_eq_getElem hidx,
      List.getElem_indexOf hidx]
    rfl
  · exfalso
    rw [List.getElem?_append_right (by omega)] at hi
    have hlen : i - L.length < clear_all_pads_events.length := by
      by_contra hge
      rw [List.getElem?_eq_none (by omega)] at hi
      cases hi
    rw [List.getElem?_eq_getElem hlen] at hi
    have hmem : m ∈ clear_all_pads_events := by
      rw [← Option.some.inj hi]
      exact List.getElem_mem hlen
    obtain ⟨n, _, rfl⟩ := List.mem_map.1 hmem
    exact hvel rfl

/-- Concrete instantiation of `claim_C1`: one clean tick, then
cancellation; the drain turns the lit pad off. -/
theorem claim_C1_witness :
    ∃ j, 0 < j ∧ (run_rain_pattern_f (fun _ => false) [⟨0, 36, 5⟩]).1[j]? =
      some (send_led_message
        ((send_led_message 36 5).note) 0) :=
  claim_C1 (fun _ => false) [⟨0, 36, 5⟩]
    (by intro t ht; rcases List.mem_singleton.1 ht with rfl
        exact ⟨by decide, by decide⟩)
    (fun i _ => rfl) 0 (send_led_message 36 5) (by decide) (by decide)

/-- C3: the shutdown drain (`clear_all_pads`, run by the `finally` block
on every exit of the loop — cancellation as well as transport error,
i.e. for every failure oracle and every tick list) appends to the trace
one velocity-0 message per pad of `PAD_NOTES`, exactly once per pad and
for all 16 pads, regardless of the dict contents, provided the drain's
own sends go through. -/
theorem claim_C3 (fails : Nat → Bool) (ticks : List TickIn)
    (hdrain : ∀ i, i < clear_all_pads_events.length →
      fails ((runLoopF fails ticks [] 0).sends + i) = false) :
    (run_rain_pattern_f fails ticks).1 =
      (runLoopF fails ticks [] 0).events ++ clear_all_pads_events ∧
    (∀ p ∈ PAD_NOTES, clear_all_pads_events.count (send_led_message p 0) = 1) ∧
    clear_all_pads_events.length = PAD_NOTES.length := by
  refine ⟨run_rain_pattern_f_trace fails ticks hdrain, ?_, by decide⟩
  intro p hp
  show ((PAD_NOTES.map (fun n => send_led_message n 0)).count
    (send_led_message p 0)) = 1
  rw [List.count_map_of_injective _ _ send_off_injective]
  exact List.count_eq_one_of_mem (by decide) hp

/-- Concrete instantiation of `claim_C3`: the first send of the first
tick fails (transport error on the very first on-event), yet the drain
still runs and sends one off-message per pad. -/
theorem claim_C3_witness :
    (run_rain_pattern_f (fun k => decide (k = 0)) [⟨0, 36, 5⟩]).1 =
      (runLoopF (fun k => decide (k = 0)) [⟨0, 36, 5⟩] [] 0).events ++
        clear_all_pads_events ∧
    (∀ p ∈ PAD_NOTES,
      clear_all_pads_events.count (send_led_message p 0) = 1) ∧
    clear_all_pads_events.length = PAD_NOTES.length :=
  claim_C3 (fun k => decide (k = 0)) [⟨0, 36, 5⟩] (by decide)

/-- C6: if a send fails during the main loop, the loop stops there: ticks
after the failure are never executed (no retry, no further on- or
off-events from the loop), and the whole remaining trace is whatever the
drain step sends. -/
theorem claim_C6 (fails : Nat → Bool) (ticks extra : List TickIn)
    (herr : (runLoopF fails ticks [] 0).errored = true) :
    runLoopF fails (ticks ++ extra) [] 0 = runLoopF fails ticks [] 0 ∧
    (run_rain_pattern_f fails (ticks ++ extra)).1 =
      (runLoopF fails ticks [] 0).events ++
        (sendListF fails clear_all_pads_events
          (runLoopF fails ticks [] 0).sends).1 := by
  have h := runLoopF_append_of_errored herr extra
  refine ⟨h, ?_⟩
  show (runLoopF fails (ticks ++ extra) [] 0).events ++ _ = _
  rw [h]

/-- Concrete instantiation of `claim_C6`: every send fails, the first
tick errors, and a queued second tick is never executed. -/
theorem claim_C6_witness :
    runLoopF (fun _ => true) ([⟨0, 36, 5⟩] ++ [⟨50, 37, 13⟩]) [] 0 =
      runLoopF (fun _ => true) [⟨0, 36, 5⟩] [] 0 ∧
    (run_rain_pattern_f (fun _ => true) ([⟨0, 36, 5⟩] ++ [⟨50, 37, 13⟩])).1 =
      (runLoopF (fun _ => true) [⟨0, 36, 5⟩] [] 0).events ++
        (sendListF (fun _ => true) clear_all_pads_events
          (runLoopF (fun _ => true) [⟨0, 36, 5⟩] [] 0).sends).1 :=
  claim_C6 (fun _ => true) [⟨0, 36, 5⟩] [⟨50, 37, 13⟩] (by decide)

/-- C7 as stated is false on the code: with a transport whose every send
raises, a send failure occurs inside the drain step (`clear_all_pads` has
no handler of its own and runs inside `finally`), and the error escapes
`run_rain_pattern`. -/
theorem claim_C7_counterexample :
    (sendListF (fun _ => true) clear_all_pads_events 0).2.2 = true ∧
    (run_rain_pattern_f (fun _ => true) []).2 = true := by
  exact ⟨rfl, rfl⟩

/-- C7 amended: a failure of an off-event send during the shutdown drain
step aborts the drain and propagates out of `run_rain_pattern` (to be
caught and reported by the top-level handler): the error escapes
`run_rain_pattern` precisely when one of the drain's sends fails. -/
theorem claim_C7_amended (fails : Nat → Bool) (ticks : List TickIn) :
    (run_rain_pattern_f fails ticks).2 = true ↔
      ∃ i, i < clear_all_pads_events.length ∧
        fails ((runLoopF fails ticks [] 0).sends + i) = true :=
  sendListF_err_iff

/-- C9: function `load_midi_port_name` returns a port name in every environment —
config file missing, unreadable or unparsable, `MIDI_PORT_NAME` key
absent, MIDI port enumeration failing — and the name is always either the
hardcoded `DEFAULT_PORT`, the configured name, or an auto-detected
Launchkey port taken from the enumerated outputs. -/
theorem claim_C9 (env : Env) :
    load_midi_port_name env = DEFAULT_PORT ∨
    (env.configExists = true ∧ ∃ p, env.configRead = some (some p) ∧
      load_midi_port_name env = p) ∨
    (∃ names n, env.outputNames = some names ∧ n ∈ names ∧
      isLaunchkeyPort n = true ∧ load_midi_port_name env = n) := by
  have hauto : auto_detect_and_save_port env = DEFAULT_PORT ∨
      (∃ names n, env.outputNames = some names ∧ n ∈ names ∧
        isLaunchkeyPort n = true ∧ auto_detect_and_save_port env = n) := by
    cases ho : env.outputNames with
    | none => exact Or.inl (by simp [auto_detect_and_save_port, ho])
    | some names =>
      cases hf : names.find? isLaunchkeyPort with
      | none => exact Or.inl (by simp [auto_detect_and_save_port, ho, hf])
      | some n =>
        exact Or.inr ⟨names, n, rfl, List.mem_of_find?_eq_some hf,
          List.find?_some hf, by simp [auto_detect_and_save_port, ho, hf]⟩
  cases hce : env.configExists with
  | false =>
    have hload : load_midi_port_name env = auto_detect_and_save_port env := by
      simp [load_midi_port_name, hce]
    rcases hauto with h | h
    · exact Or.inl (hload.trans h)
    · obtain ⟨names, n, h1, h2, h3, h4⟩ := h
      exact Or.inr (Or.inr ⟨names, n, h1, h2, h3, hload.trans h4⟩)
  | true =>
    cases hcr : env.configRead with
    | none =>
      have hload : load_midi_port_name env = auto_detect_and_save_port env := by
        simp [load_midi_port_name, hce, hcr]
      rcases hauto with h | h
      · exact Or.inl (hload.trans h)
      · obtain ⟨names, n, h1, h2, h3, h4⟩ := h
        exact Or.inr (Or.inr ⟨names, n, h1, h2, h3, hload.trans h4⟩)
    | some config =>
      cases config with
      | none => exact Or.inl (by simp [load_midi_port_name, hce, hcr])
      | some p =>
        exact Or.inr (Or.inl ⟨rfl, p, rfl,
          by simp [load_midi_port_name, hce, hcr]⟩)
